import Mathlib

/-!
Shallow embedding of the InstaReply webhook-to-decision pipeline.

The definitions below are translated from the TypeScript sources:
  * `apps/server/src/services/rules.ts`   (KeywordRulesService)
  * `apps/server/src/services/llm.ts`     (OpenAiLlmService.generateDraft)
  * `apps/server/src/types/llm.ts`        (llmDraftSchema)
  * `apps/server/src/services/policy.ts`  (DEFAULT_POLICIES, ensurePolicy)
  * `apps/server/src/routes/webhook.ts`   (createWebhookWorker, eventToJob, extractJobs)
  * `apps/server/src/queue/inMemoryQueue.ts` (InMemoryQueue)

JavaScript numbers are modelled as rationals, the Prisma store as explicit
record lists threaded through the worker, asynchronous collaborator calls as
explicit function arguments returning `Except` for fallible calls, and wall
clock reads as explicit `now` arguments.
-/

namespace InstaReply

/-- Decimal literals such as `0.6` or `0.95`, as they appear in the source,
elaborated through a kernel-computable instance so that concrete runs can be
settled by `decide`. `ratOfScientific_eq` below shows it agrees with the
library's `Rat.ofScientific`. -/
instance ratOfScientific : OfScientific ℚ :=
  ⟨fun m s e => if s then mkRat m (10 ^ e) else (m * 10 ^ e : Nat)⟩

theorem ratOfScientific_eq (m e : Nat) (s : Bool) :
    (OfScientific.ofScientific m s e : ℚ) = Rat.ofScientific m s e := by
  cases s <;>
    simp [OfScientific.ofScientific, ratOfScientific, Rat.ofScientific_false_def,
      Rat.ofScientific_true_def]

/-! ## String helpers

JavaScript string methods used by the sources, implemented by structural
recursion on the character list so that closed runs evaluate in the kernel. -/

/-- Does `pat` occur as a contiguous subsequence of `l`? -/
def containsSeq {α : Type} [BEq α] (pat : List α) : List α → Bool
  | [] => pat.isEmpty
  | a :: rest => pat.isPrefixOf (a :: rest) || containsSeq pat rest

/-- `String.prototype.includes`. -/
def includesStr (s pat : String) : Bool :=
  containsSeq pat.data s.data

/-- `String.prototype.toLowerCase` (ASCII range, which covers every keyword in
the rules table). -/
def toLowerStr (s : String) : String :=
  ⟨s.data.map Char.toLower⟩

/-- `String.prototype.trim`: strip whitespace from both ends. -/
def trimStr (s : String) : String :=
  ⟨(((s.data.dropWhile Char.isWhitespace).reverse).dropWhile Char.isWhitespace).reverse⟩

/-! ## Drafts (types/llm.ts) -/

/-- A reply draft, the shape validated by `llmDraftSchema`. -/
structure LlmDraft where
  intent : String
  confidence : ℚ
  reply : String
  needs_human_approval : Bool
deriving Repr, DecidableEq

/-- The closed intent enumeration of `intentSchema`. -/
def intentValues : List String :=
  ["general_question", "pricing", "order_support", "shipping", "refund", "unknown"]

/-! ## Rules service (services/rules.ts) -/

/-- `KeywordRulesService.hasAny`. -/
def hasAny (text : String) (keywords : List String) : Bool :=
  keywords.any (fun keyword => includesStr text keyword)

/-- `KeywordRulesService.generateDraft`: first-match-wins keyword rules. -/
def rulesGenerateDraft (text : String) : Option LlmDraft :=
  let normalized := toLowerStr text
  if hasAny normalized ["price", "how much", "cost"] then
    some { intent := "pricing", confidence := 0.95,
           reply := "Thanks for reaching out. Our pricing depends on your needs. Share what you\x27re looking for and I\x27ll send the best option.",
           needs_human_approval := false }
  else if hasAny normalized ["refund", "return", "chargeback"] then
    some { intent := "refund", confidence := 0.9,
           reply := "I can help with refund support. Please share your order number and the issue, and we\x27ll review it right away.",
           needs_human_approval := false }
  else if hasAny normalized ["shipping", "delivery", "tracking"] then
    some { intent := "shipping", confidence := 0.9,
           reply := "Happy to help with shipping updates. Send your order number and I\x27ll check status and ETA for you.",
           needs_human_approval := false }
  else if hasAny normalized ["order", "purchase", "invoice"] then
    some { intent := "order_support", confidence := 0.88,
           reply := "I can help with your order. Please share your order number and a short description of the issue.",
           needs_human_approval := false }
  else
    none

/-! ## LLM service (services/llm.ts) -/

/-- JSON values, for the model response body handed to `llmDraftSchema.parse`. -/
inductive Json where
  | null : Json
  | bool (b : Bool) : Json
  | num (q : ℚ) : Json
  | str (s : String) : Json
  | arr (elems : List Json) : Json
  | obj (fields : List (String × Json)) : Json

/-- Object field lookup. -/
def Json.getField (j : Json) (name : String) : Option Json :=
  match j with
  | .obj fields => (fields.find? (fun f => f.1 == name)).map (fun f => f.2)
  | _ => none

/-- `llmDraftSchema.parse`: intent must come from `intentValues`, confidence
must be a number in `[0, 1]`, reply a nonempty string, and
`needs_human_approval` a boolean. -/
def validateDraft (j : Json) : Except String LlmDraft :=
  match j.getField "intent" with
  | some (.str i) =>
    if intentValues.contains i then
      match j.getField "confidence" with
      | some (.num c) =>
        if 0 ≤ c ∧ c ≤ 1 then
          match j.getField "reply" with
          | some (.str r) =>
            if 1 ≤ r.length then
              match j.getField "needs_human_approval" with
              | some (.bool b) =>
                Except.ok { intent := i, confidence := c, reply := r, needs_human_approval := b }
              | _ => Except.error "invalid needs_human_approval"
            else Except.error "reply too short"
          | _ => Except.error "invalid reply"
        else Except.error "confidence out of range"
      | _ => Except.error "invalid confidence"
    else Except.error "invalid intent"
  | _ => Except.error "missing intent"

/-- The safe fallback draft returned by the `catch` arm of
`OpenAiLlmService.generateDraft`. -/
def fallbackDraft : LlmDraft :=
  { intent := "unknown", confidence := 0.0,
    reply := "Thanks for your message. A team member will review this shortly.",
    needs_human_approval := true }

/-- `OpenAiLlmService.generateDraft`. The argument stands for the outcome of
the chat-completions call together with `JSON.parse` of its content: a network
or transport error and malformed JSON are `Except.error`, a parsed JSON body is
`Except.ok`. Everything inside the `try` block that fails, including schema
validation, lands in the `catch` arm which returns `fallbackDraft`. -/
def generateDraft (completion : Except String Json) : LlmDraft :=
  match completion with
  | .error _ => fallbackDraft
  | .ok j =>
    match validateDraft j with
    | .ok d => d
    | .error _ => fallbackDraft

/-! ## Policy service (services/policy.ts) -/

/-- The four audience segments (`ContactSegment` Prisma enum). -/
inductive ContactSegment where
  | FRIEND | KNOWN | STRANGER | VIP
deriving Repr, DecidableEq

/-- `PolicyDefaults`. -/
structure PolicyDefaults where
  autoSend : Bool
  requireHumanApproval : Bool
  template : Option String
deriving Repr, DecidableEq

/-- The `DEFAULT_POLICIES` table. -/
def getDefaultPolicy : ContactSegment → PolicyDefaults
  | .FRIEND => { autoSend := false, requireHumanApproval := true, template := none }
  | .KNOWN => { autoSend := true, requireHumanApproval := false, template := none }
  | .STRANGER => { autoSend := true, requireHumanApproval := false, template := none }
  | .VIP => { autoSend := false, requireHumanApproval := true, template := none }

/-- A persisted `ReplyPolicy` row (record id and timestamps omitted). -/
structure ReplyPolicy where
  segment : ContactSegment
  autoSend : Bool
  requireHumanApproval : Bool
  template : Option String
deriving Repr, DecidableEq

/-- `ensurePolicy`: `prisma.replyPolicy.upsert` keyed on `segment`, with an
empty `update` clause and the defaults as the `create` clause. The store is the
list of persisted rows; upsert finds an existing row or appends a new one. -/
def ensurePolicy (store : List ReplyPolicy) (segment : ContactSegment) :
    ReplyPolicy × List ReplyPolicy :=
  match store.find? (fun p => p.segment == segment) with
  | some p => (p, store)
  | none =>
    let d := getDefaultPolicy segment
    let p : ReplyPolicy :=
      { segment := segment, autoSend := d.autoSend,
        requireHumanApproval := d.requireHumanApproval, template := d.template }
    (p, store ++ [p])

/-! ## Webhook payload types (types/meta.ts) -/

/-- `sender` / `recipient` objects. -/
structure MetaParty where
  id : Option String := none
deriving Repr, DecidableEq

/-- The nested `message` object. -/
structure MetaMessage where
  mid : Option String := none
  text : Option String := none
  is_echo : Option Bool := none
deriving Repr, DecidableEq

/-- The `conversation` object. -/
structure MetaConversation where
  id : Option String := none
deriving Repr, DecidableEq

/-- `MetaMessagingEvent`. -/
structure MetaMessagingEvent where
  sender : Option MetaParty := none
  recipient : Option MetaParty := none
  timestamp : Option Nat := none
  conversation : Option MetaConversation := none
  message : Option MetaMessage := none
deriving Repr, DecidableEq

/-- `MetaEntry`. -/
structure MetaEntry where
  id : Option String := none
  time : Option Nat := none
  messaging : Option (List MetaMessagingEvent) := none
deriving Repr, DecidableEq

/-- `MetaWebhookPayload`. -/
structure MetaWebhookPayload where
  object : Option String := none
  entry : Option (List MetaEntry) := none
deriving Repr, DecidableEq

/-- `ParsedWebhookJob` (the `rawPayload` field, attached on enqueue and only
stored opaquely in RawEvent, is omitted). -/
structure ParsedWebhookJob where
  messageId : String
  senderId : String
  text : String
  timestamp : Nat
  threadId : String
  isFromSelfOrSystem : Bool
deriving Repr, DecidableEq

/-! ## Event normalizer (routes/webhook.ts: eventToJob, extractJobs) -/

/-- `eventToJob`. `now` stands for `Date.now()`, read when `event.timestamp`
is absent. The guard `!messageId || !senderId` treats both a missing field and
an empty string as falsy. -/
def eventToJob (now : Nat) (entryId : String) (event : MetaMessagingEvent) :
    Option ParsedWebhookJob :=
  let messageId := event.message.bind (fun m => m.mid)
  let senderId := event.sender.bind (fun s => s.id)
  match messageId, senderId with
  | some mid, some sid =>
    if mid.isEmpty || sid.isEmpty then none
    else
      some { messageId := mid
             senderId := sid
             text := (event.message.bind (fun m => m.text)).getD ""
             timestamp := event.timestamp.getD now
             threadId := (event.conversation.bind (fun c => c.id)).getD
               (entryId ++ "_" ++ sid)
             isFromSelfOrSystem :=
               ((event.message.bind (fun m => m.is_echo)).getD false) ||
                 (event.sender.bind (fun s => s.id) ==
                   event.recipient.bind (fun r => r.id)) }
  | _, _ => none

/-- `extractJobs`: flatten `payload.entry[].messaging[]`, dropping events for
which `eventToJob` returns `null`. -/
def extractJobs (now : Nat) (payload : MetaWebhookPayload) : List ParsedWebhookJob :=
  (payload.entry.getD []).flatMap (fun entry =>
    (entry.messaging.getD []).filterMap
      (eventToJob now (entry.id.getD "unknown_thread")))

/-! ## Persistence model for the worker (routes/webhook.ts: createWebhookWorker)

The Prisma store is modelled as record lists plus a counter for generated row
ids; every worker persistence call is one of the operations below. -/

/-- `MessageDirection` Prisma enum. -/
inductive MessageDirection where
  | IN | OUT
deriving Repr, DecidableEq

/-- A persisted `Message` row. -/
structure DbMessage where
  id : Nat
  igMessageId : String
  threadId : Nat
  senderIgId : String
  direction : MessageDirection
  text : String
  receivedAt : Nat
  intent : Option String := none
  confidence : Option ℚ := none
  suggestedReply : Option String := none
  needsHumanApproval : Bool := false
deriving Repr, DecidableEq

/-- A persisted `Thread` row. -/
structure DbThread where
  id : Nat
  igThreadId : String
deriving Repr, DecidableEq

/-- A persisted `Contact` row. -/
structure DbContact where
  senderIgId : String
  segment : ContactSegment
deriving Repr, DecidableEq

/-- A persisted `DeliveryLog` row. -/
structure DbDeliveryLog where
  messageId : Nat
  status : String
  error : Option String := none
  latencyMs : Option Nat := none
deriving Repr, DecidableEq

/-- The database state. `nextId` generates row ids. -/
structure Db where
  nextId : Nat := 0
  rawEvents : List String := []
  threads : List DbThread := []
  messages : List DbMessage := []
  contacts : List DbContact := []
  replyPolicies : List ReplyPolicy := []
  deliveryLogs : List DbDeliveryLog := []
deriving Repr, DecidableEq

/-- `prisma.rawEvent.upsert` keyed on `igMessageId` with empty `update`:
create-if-absent, otherwise a no-op (payload body stored opaquely, kept here
as the key only). -/
def upsertRawEvent (db : Db) (igMessageId : String) : Db :=
  if db.rawEvents.contains igMessageId then db
  else { db with rawEvents := db.rawEvents ++ [igMessageId] }

/-- `prisma.message.findUnique({ where: { igMessageId } })`. -/
def findMessageByIgId (db : Db) (igMessageId : String) : Option DbMessage :=
  db.messages.find? (fun m => m.igMessageId == igMessageId)

/-- `prisma.thread.upsert` keyed on `igThreadId` with empty `update`. -/
def upsertThread (db : Db) (igThreadId : String) : DbThread × Db :=
  match db.threads.find? (fun t => t.igThreadId == igThreadId) with
  | some t => (t, db)
  | none =>
    let t : DbThread := { id := db.nextId, igThreadId := igThreadId }
    (t, { db with nextId := db.nextId + 1, threads := db.threads ++ [t] })

/-- `prisma.message.create`. -/
def createMessage (db : Db) (igMessageId : String) (threadId : Nat)
    (senderIgId : String) (direction : MessageDirection) (text : String)
    (receivedAt : Nat) : DbMessage × Db :=
  let m : DbMessage :=
    { id := db.nextId, igMessageId := igMessageId, threadId := threadId,
      senderIgId := senderIgId, direction := direction, text := text,
      receivedAt := receivedAt }
  (m, { db with nextId := db.nextId + 1, messages := db.messages ++ [m] })

/-- `prisma.message.update` writing the classification fields. -/
def updateMessageDraft (db : Db) (id : Nat) (draft : LlmDraft) : Db :=
  { db with
    messages := db.messages.map (fun m =>
      if m.id == id then
        { m with intent := some draft.intent, confidence := some draft.confidence,
                 suggestedReply := some draft.reply,
                 needsHumanApproval := draft.needs_human_approval }
      else m) }

/-- `prisma.deliveryLog.create` (append-only). -/
def createDeliveryLog (db : Db) (log : DbDeliveryLog) : Db :=
  { db with deliveryLogs := db.deliveryLogs ++ [log] }

/-- `createSkipLog`. -/
def createSkipLog (db : Db) (messageId : Nat) (reason : String) : Db :=
  createDeliveryLog db { messageId := messageId, status := "SKIPPED", error := some reason }

/-- The result of `IgService.sendMessage`. -/
structure SendResult where
  messageId : String
  latencyMs : Nat
deriving Repr, DecidableEq

/-- The collaborators of `createWebhookWorker`: the business account id from
`env`, the rules and LLM services, the Instagram delivery client (which may
throw, hence `Except`), and the wall clock for `new Date()` on the outbound
row. -/
structure WorkerDeps where
  metaIgBusinessAccountId : String
  now : Nat
  rules : String → Option LlmDraft
  llm : String → LlmDraft
  igSendMessage : String → String → Except String SendResult

/-- `createWebhookWorker`'s job handler. Returns the updated database and the
number of `ig.sendMessage` invocations made for this job. The inbound
`receivedAt` is the job timestamp (`new Date(job.timestamp)`, with the
non-finite-timestamp fallback to ingestion time abstracted away since model
timestamps are naturals). -/
def runWebhookWorker (deps : WorkerDeps) (job : ParsedWebhookJob) (db0 : Db) :
    Db × Nat :=
  let db1 := upsertRawEvent db0 job.messageId
  match findMessageByIgId db1 job.messageId with
  | some _ => (db1, 0)
  | none =>
    let tu := upsertThread db1 job.threadId
    let mc := createMessage tu.2 job.messageId tu.1.id job.senderId
      MessageDirection.IN job.text job.timestamp
    let inbound := mc.1
    let db3 := mc.2
    if (trimStr job.text).isEmpty then
      (createSkipLog db3 inbound.id "Guardrail: empty message text", 0)
    else if job.isFromSelfOrSystem then
      (createSkipLog db3 inbound.id "Guardrail: self/system message", 0)
    else
      let draft := (deps.rules job.text).getD (deps.llm job.text)
      let db4 := updateMessageDraft db3 inbound.id draft
      if draft.confidence < (0.6 : ℚ) ∨ draft.needs_human_approval = true then
        (createSkipLog db4 inbound.id
          "Guardrail: low confidence or human approval required", 0)
      else
        match deps.igSendMessage job.senderId draft.reply with
        | .ok send =>
          let oc := createMessage db4 send.messageId tu.1.id
            deps.metaIgBusinessAccountId MessageDirection.OUT draft.reply deps.now
          (createDeliveryLog oc.2
            { messageId := oc.1.id, status := "SENT", latencyMs := some send.latencyMs }, 1)
        | .error e =>
          (createDeliveryLog db4
            { messageId := inbound.id, status := "ERROR", error := some e }, 1)

/-! ## Job queue (queue/inMemoryQueue.ts)

`InMemoryQueue` runs on the single-threaded JS event loop: `enqueue` and
`start` run `drain` synchronously (its dispatch loop contains no `await`), and
each dispatched worker invocation finishes later as a separate event that
decrements `inFlight` and drains again. The model is therefore a state machine
whose atomic transitions are `enqueue`, `start` and one worker completion, each
followed by `drain`. -/

/-- Queue state. `inFlight` lists the currently executing jobs in dispatch
order, `finished` the completed invocations in completion order with their
success flag (`false` when the worker threw and the `onError` hook fired), and
`enqueued` is the history of `enqueue` calls, recorded for specification
purposes only (no transition reads it). -/
structure QueueState (T : Type) where
  concurrency : Nat
  started : Bool
  pending : List T
  inFlight : List T
  finished : List (T × Bool)
  enqueued : List T
deriving Repr, DecidableEq

/-- The `drain` dispatch loop: while a worker is registered, `inFlight` is
below `concurrency` and jobs are pending, shift the oldest pending job and
invoke the worker on it. One run moves exactly
`min (concurrency - inFlight.length) pending.length` jobs. -/
def drainQ {T : Type} (s : QueueState T) : QueueState T :=
  if s.started then
    let k := s.concurrency - s.inFlight.length
    { s with inFlight := s.inFlight ++ s.pending.take k, pending := s.pending.drop k }
  else s

/-- The state right after the constructor. -/
def initQueue (T : Type) (concurrency : Nat) : QueueState T :=
  { concurrency := concurrency, started := false, pending := [], inFlight := [],
    finished := [], enqueued := [] }

/-- `enqueue(job)`: push then drain. -/
def enqueueQ {T : Type} (s : QueueState T) (j : T) : QueueState T :=
  drainQ { s with pending := s.pending ++ [j], enqueued := s.enqueued ++ [j] }

/-- `start(worker)`: register the worker then drain. -/
def startQ {T : Type} (s : QueueState T) : QueueState T :=
  drainQ { s with started := true }

/-- A worker invocation on `j` settles: `j` leaves `inFlight`, the `catch`
hook has fired iff `ok = false`, and the `finally` callback decrements
`inFlight` and drains again. -/
def completeQ {T : Type} [BEq T] (s : QueueState T) (j : T) (ok : Bool) : QueueState T :=
  drainQ { s with inFlight := s.inFlight.erase j,
                  finished := s.finished ++ [(j, ok)] }

/-- One event-loop transition of the queue. Completion is nondeterministic:
any in-flight job may settle next, with either outcome. -/
inductive QueueStep {T : Type} [BEq T] : QueueState T → QueueState T → Prop where
  | enqueue (s : QueueState T) (j : T) : QueueStep s (enqueueQ s j)
  | start (s : QueueState T) : QueueStep s (startQ s)
  | complete (s : QueueState T) (j : T) (ok : Bool) (h : j ∈ s.inFlight) :
      QueueStep s (completeQ s j ok)

/-- States reachable from a fresh queue with the given concurrency. -/
def QueueReachable (T : Type) [BEq T] (concurrency : Nat) (s : QueueState T) : Prop :=
  Relation.ReflTransGen QueueStep (initQueue T concurrency) s

/-- The jobs passed to the `onError` hook, in hook-invocation order. -/
def errorJobs {T : Type} (s : QueueState T) : List T :=
  (s.finished.filter (fun p => p.2 == false)).map (fun p => p.1)

/-- Deterministic completion driver: settle the oldest in-flight job, the
worker failing exactly on jobs satisfying `fail` (this is how the repository's
own queue tests drive the queue at concurrency 1). -/
def completeNext {T : Type} [BEq T] (fail : T → Bool) (s : QueueState T) : QueueState T :=
  match s.inFlight with
  | [] => s
  | j :: _ => completeQ s j (! fail j)

/-- Run `completeNext` until no job is in flight (fuel-bounded). -/
def runLoop {T : Type} [BEq T] (fail : T → Bool) : Nat → QueueState T → QueueState T
  | 0, s => s
  | n + 1, s => if s.inFlight.isEmpty then s else runLoop fail n (completeNext fail s)

/-- Start a fresh queue, enqueue `jobs` in order, then let every invocation
settle. -/
def runJobs {T : Type} [BEq T] (concurrency : Nat) (fail : T → Bool)
    (jobs : List T) : QueueState T :=
  runLoop fail jobs.length (jobs.foldl enqueueQ (startQ (initQueue T concurrency)))

/-! ## Basic facts about the persistence operations -/

@[simp]
theorem upsertRawEvent_messages (db : Db) (m : String) :
    (upsertRawEvent db m).messages = db.messages := by
  unfold upsertRawEvent; split <;> rfl

@[simp]
theorem upsertRawEvent_deliveryLogs (db : Db) (m : String) :
    (upsertRawEvent db m).deliveryLogs = db.deliveryLogs := by
  unfold upsertRawEvent; split <;> rfl

@[simp]
theorem upsertRawEvent_nextId (db : Db) (m : String) :
    (upsertRawEvent db m).nextId = db.nextId := by
  unfold upsertRawEvent; split <;> rfl

@[simp]
theorem findMessageByIgId_upsertRawEvent (db : Db) (m x : String) :
    findMessageByIgId (upsertRawEvent db m) x = findMessageByIgId db x := by
  unfold findMessageByIgId; rw [upsertRawEvent_messages]

@[simp]
theorem upsertThread_messages (db : Db) (t : String) :
    (upsertThread db t).2.messages = db.messages := by
  unfold upsertThread; split <;> rfl

@[simp]
theorem upsertThread_deliveryLogs (db : Db) (t : String) :
    (upsertThread db t).2.deliveryLogs = db.deliveryLogs := by
  unfold upsertThread; split <;> rfl

@[simp]
theorem createMessage_fst (db : Db) (ig : String) (tid : Nat) (sid : String)
    (dir : MessageDirection) (text : String) (rec : Nat) :
    (createMessage db ig tid sid dir text rec).1 =
      { id := db.nextId, igMessageId := ig, threadId := tid, senderIgId := sid,
        direction := dir, text := text, receivedAt := rec } := rfl

@[simp]
theorem createMessage_messages (db : Db) (ig : String) (tid : Nat) (sid : String)
    (dir : MessageDirection) (text : String) (rec : Nat) :
    (createMessage db ig tid sid dir text rec).2.messages =
      db.messages ++ [(createMessage db ig tid sid dir text rec).1] := rfl

@[simp]
theorem createMessage_deliveryLogs (db : Db) (ig : String) (tid : Nat) (sid : String)
    (dir : MessageDirection) (text : String) (rec : Nat) :
    (createMessage db ig tid sid dir text rec).2.deliveryLogs = db.deliveryLogs := rfl

@[simp]
theorem createMessage_nextId (db : Db) (ig : String) (tid : Nat) (sid : String)
    (dir : MessageDirection) (text : String) (rec : Nat) :
    (createMessage db ig tid sid dir text rec).2.nextId = db.nextId + 1 := rfl

@[simp]
theorem updateMessageDraft_deliveryLogs (db : Db) (id : Nat) (draft : LlmDraft) :
    (updateMessageDraft db id draft).deliveryLogs = db.deliveryLogs := rfl

@[simp]
theorem updateMessageDraft_messages (db : Db) (id : Nat) (draft : LlmDraft) :
    (updateMessageDraft db id draft).messages =
      db.messages.map (fun m =>
        if m.id == id then
          { m with intent := some draft.intent, confidence := some draft.confidence,
                   suggestedReply := some draft.reply,
                   needsHumanApproval := draft.needs_human_approval }
        else m) := rfl

@[simp]
theorem updateMessageDraft_nextId (db : Db) (id : Nat) (draft : LlmDraft) :
    (updateMessageDraft db id draft).nextId = db.nextId := rfl

@[simp]
theorem createDeliveryLog_deliveryLogs (db : Db) (log : DbDeliveryLog) :
    (createDeliveryLog db log).deliveryLogs = db.deliveryLogs ++ [log] := rfl

@[simp]
theorem createDeliveryLog_messages (db : Db) (log : DbDeliveryLog) :
    (createDeliveryLog db log).messages = db.messages := rfl

/-! ## C3: duplicate deliveries are a silent no-op -/

/-- C3. For all jobs sharing the same `messageId`, any run of the processing
worker that finds an existing `Message` row with that `messageId` performs
only the RawEvent upsert and the dedupe lookup and then returns: the whole run
equals `(upsertRawEvent db job.messageId, 0)`, so it creates no Message rows,
writes no DeliveryLog entries, and makes zero delivery-collaborator calls. -/
theorem worker_duplicate_noop (deps : WorkerDeps) (job : ParsedWebhookJob) (db : Db)
    (h : ∃ m ∈ db.messages, m.igMessageId = job.messageId) :
    runWebhookWorker deps job db = (upsertRawEvent db job.messageId, 0) ∧
    (runWebhookWorker deps job db).1.messages = db.messages ∧
    (runWebhookWorker deps job db).1.deliveryLogs = db.deliveryLogs ∧
    (runWebhookWorker deps job db).2 = 0 := by
  have hsome : (findMessageByIgId db job.messageId).isSome := by
    unfold findMessageByIgId
    rw [List.find?_isSome]
    obtain ⟨m, hm, he⟩ := h
    exact ⟨m, hm, by simp [he]⟩
  obtain ⟨m0, hm0⟩ := Option.isSome_iff_exists.mp hsome
  have hrun : runWebhookWorker deps job db = (upsertRawEvent db job.messageId, 0) := by
    unfold runWebhookWorker
    simp only [findMessageByIgId_upsertRawEvent, hm0]
  refine ⟨hrun, ?_, ?_, ?_⟩ <;> rw [hrun] <;> simp

/-- Witness for C3: a second delivery of the same job is a no-op. The first
run persists the inbound row for `mid_1`; the rerun changes nothing. -/
theorem worker_duplicate_noop_witness :
    (∃ m ∈ (runWebhookWorker
      { metaIgBusinessAccountId := "ig_biz_id", now := 5,
        rules := rulesGenerateDraft, llm := fun _ => fallbackDraft,
        igSendMessage := fun _ _ => Except.ok { messageId := "out_1", latencyMs := 1 } }
      { messageId := "mid_1", senderId := "sender_1",
        text := "How much does this cost?", timestamp := 3, threadId := "thread_1",
        isFromSelfOrSystem := false } {}).1.messages,
        m.igMessageId = "mid_1") ∧
    (runWebhookWorker
      { metaIgBusinessAccountId := "ig_biz_id", now := 5,
        rules := rulesGenerateDraft, llm := fun _ => fallbackDraft,
        igSendMessage := fun _ _ => Except.ok { messageId := "out_1", latencyMs := 1 } }
      { messageId := "mid_1", senderId := "sender_1",
        text := "How much does this cost?", timestamp := 3, threadId := "thread_1",
        isFromSelfOrSystem := false }
      (runWebhookWorker
        { metaIgBusinessAccountId := "ig_biz_id", now := 5,
          rules := rulesGenerateDraft, llm := fun _ => fallbackDraft,
          igSendMessage := fun _ _ => Except.ok { messageId := "out_1", latencyMs := 1 } }
        { messageId := "mid_1", senderId := "sender_1",
          text := "How much does this cost?", timestamp := 3, threadId := "thread_1",
          isFromSelfOrSystem := false } {}).1).2 = 0 :=
  ⟨by decide,
    (worker_duplicate_noop _ _ _ (by decide)).2.2.2⟩

/-! ## C2: which Message row a terminal DeliveryLog entry is attached to -/

/-- Worker collaborators for a successful send: keyword rules, LLM fallback,
and a delivery client that succeeds with message id `out_sent_1` after 9ms. -/
def sendDeps : WorkerDeps :=
  { metaIgBusinessAccountId := "ig_biz_id", now := 7,
    rules := rulesGenerateDraft, llm := fun _ => fallbackDraft,
    igSendMessage := fun _ _ => Except.ok { messageId := "out_sent_1", latencyMs := 9 } }

/-- A job whose text matches the `shipping` keyword rule (confidence 0.9). -/
def sendJob : ParsedWebhookJob :=
  { messageId := "mid_send_ok", senderId := "stranger_sender",
    text := "Is there tracking?", timestamp := 2, threadId := "thread_9",
    isFromSelfOrSystem := false }

/-- The draft the keyword rules produce for `sendJob.text`. -/
def shippingDraft : LlmDraft :=
  { intent := "shipping", confidence := 0.9,
    reply := "Happy to help with shipping updates. Send your order number and I\x27ll check status and ETA for you.",
    needs_human_approval := false }

/-- Counterexample for C2. A concrete successful send (rules match `tracking`,
confidence `0.9`, empty initial database): the single DeliveryLog entry has
status `SENT` and `messageId = 2`, the id of the outbound `OUT` row, while the
inbound `IN` row for the job has id `1` — so the SENT entry is not attached to
the inbound Message id, contradicting the claim. -/
theorem sent_log_attached_to_outbound_cex :
    ((runWebhookWorker sendDeps sendJob {}).1.deliveryLogs
      = [{ messageId := 2, status := "SENT", error := none, latencyMs := some 9 }]) ∧
    ((runWebhookWorker sendDeps sendJob {}).1.messages.map
        (fun m => (m.id, m.igMessageId, m.direction))
      = [(1, "mid_send_ok", MessageDirection.IN), (2, "out_sent_1", MessageDirection.OUT)]) ∧
    (2 : Nat) ≠ 1 := by
  refine ⟨by decide, by decide, by decide⟩

/-- `prisma.message.findUnique({ where: { id } })`, the lookup of the manual
send route. -/
def findMessageById (db : Db) (id : Nat) : Option DbMessage :=
  db.messages.find? (fun m => m.id == id)

/-- The send path of `POST /admin/send` (registerAdminRoutes): look up the
inbound Message by row id; a missing row or a non-`IN` row is a 404 with no
writes; otherwise try the delivery client, on success creating the outbound
`OUT` row and a `SENT_MANUAL` entry attached to it, on failure an
`ERROR_MANUAL` entry attached to the inbound row. -/
def adminSendMessage (ig : String → String → Except String SendResult)
    (metaIgBusinessAccountId : String) (now : Nat) (db : Db) (messageId : Nat)
    (replyText : String) : Db :=
  match findMessageById db messageId with
  | none => db
  | some inbound =>
    if inbound.direction = MessageDirection.IN then
      match ig inbound.senderIgId replyText with
      | .ok send =>
        let oc := createMessage db send.messageId inbound.threadId
          metaIgBusinessAccountId MessageDirection.OUT replyText now
        createDeliveryLog oc.2
          { messageId := oc.1.id, status := "SENT_MANUAL",
            latencyMs := some send.latencyMs }
      | .error e =>
        createDeliveryLog db
          { messageId := inbound.id, status := "ERROR_MANUAL", error := some e }
    else db

/-- C2 as amended by the counterexample. Every guardrail `SKIPPED` entry
(empty text, self/system, low confidence or approval) and the send-failure
`ERROR` entry are attached to the id of the inbound `IN` Message row for the
job (no outbound row exists then); the `SENT` entry written after a successful
send is attached to the id of the newly created outbound `OUT` row, which
differs from the inbound row's id. The manual send route likewise attaches
`SENT_MANUAL` to its new outbound row and `ERROR_MANUAL` to the inbound row. -/
theorem delivery_log_attachment (deps : WorkerDeps) (job : ParsedWebhookJob)
    (db : Db) (draft : LlmDraft) (tu : DbThread × Db)
    (h1 : findMessageByIgId db job.messageId = none)
    (hdraft : (deps.rules job.text).getD (deps.llm job.text) = draft)
    (htu : upsertThread (upsertRawEvent db job.messageId) job.threadId = tu) :
    ((trimStr job.text).isEmpty = true →
      (runWebhookWorker deps job db).2 = 0 ∧
      ∃ inbound,
        inbound ∈ (runWebhookWorker deps job db).1.messages ∧
        inbound.direction = MessageDirection.IN ∧
        inbound.igMessageId = job.messageId ∧
        (runWebhookWorker deps job db).1.deliveryLogs = db.deliveryLogs ++
          [{ messageId := inbound.id, status := "SKIPPED",
             error := some "Guardrail: empty message text", latencyMs := none }]) ∧
    ((trimStr job.text).isEmpty = false → job.isFromSelfOrSystem = true →
      (runWebhookWorker deps job db).2 = 0 ∧
      ∃ inbound,
        inbound ∈ (runWebhookWorker deps job db).1.messages ∧
        inbound.direction = MessageDirection.IN ∧
        inbound.igMessageId = job.messageId ∧
        (runWebhookWorker deps job db).1.deliveryLogs = db.deliveryLogs ++
          [{ messageId := inbound.id, status := "SKIPPED",
             error := some "Guardrail: self/system message", latencyMs := none }]) ∧
    ((trimStr job.text).isEmpty = false → job.isFromSelfOrSystem = false →
      (draft.confidence < (0.6 : ℚ) ∨ draft.needs_human_approval = true) →
      (runWebhookWorker deps job db).2 = 0 ∧
      ∃ inbound,
        inbound ∈ (runWebhookWorker deps job db).1.messages ∧
        inbound.direction = MessageDirection.IN ∧
        inbound.igMessageId = job.messageId ∧
        (runWebhookWorker deps job db).1.deliveryLogs = db.deliveryLogs ++
          [{ messageId := inbound.id, status := "SKIPPED",
             error := some "Guardrail: low confidence or human approval required",
             latencyMs := none }]) ∧
    ((trimStr job.text).isEmpty = false → job.isFromSelfOrSystem = false →
      ¬(draft.confidence < (0.6 : ℚ) ∨ draft.needs_human_approval = true) →
      (∀ r, deps.igSendMessage job.senderId draft.reply = Except.ok r →
        (runWebhookWorker deps job db).2 = 1 ∧
        ∃ outbound inbound,
          outbound ∈ (runWebhookWorker deps job db).1.messages ∧
          outbound.direction = MessageDirection.OUT ∧
          outbound.igMessageId = r.messageId ∧
          inbound ∈ (runWebhookWorker deps job db).1.messages ∧
          inbound.direction = MessageDirection.IN ∧
          inbound.igMessageId = job.messageId ∧
          outbound.id ≠ inbound.id ∧
          (runWebhookWorker deps job db).1.deliveryLogs = db.deliveryLogs ++
            [{ messageId := outbound.id, status := "SENT", error := none,
               latencyMs := some r.latencyMs }]) ∧
      (∀ e, deps.igSendMessage job.senderId draft.reply = Except.error e →
        (runWebhookWorker deps job db).2 = 1 ∧
        ∃ inbound,
          inbound ∈ (runWebhookWorker deps job db).1.messages ∧
          inbound.direction = MessageDirection.IN ∧
          inbound.igMessageId = job.messageId ∧
          (runWebhookWorker deps job db).1.deliveryLogs = db.deliveryLogs ++
            [{ messageId := inbound.id, status := "ERROR", error := some e,
               latencyMs := none }])) ∧
    (∀ (ig : String → String → Except String SendResult) (businessId : String)
        (now : Nat) (adb : Db) (mid : Nat) (replyText : String)
        (inbound : DbMessage),
      findMessageById adb mid = some inbound →
      inbound.direction = MessageDirection.IN →
      (∀ r, ig inbound.senderIgId replyText = Except.ok r →
        ∃ outbound,
          outbound ∈ (adminSendMessage ig businessId now adb mid replyText).messages ∧
          outbound.direction = MessageDirection.OUT ∧
          outbound.igMessageId = r.messageId ∧
          (adminSendMessage ig businessId now adb mid replyText).deliveryLogs =
            adb.deliveryLogs ++
            [{ messageId := outbound.id, status := "SENT_MANUAL", error := none,
               latencyMs := some r.latencyMs }]) ∧
      (∀ e, ig inbound.senderIgId replyText = Except.error e →
        (adminSendMessage ig businessId now adb mid replyText).messages =
          adb.messages ∧
        (adminSendMessage ig businessId now adb mid replyText).deliveryLogs =
          adb.deliveryLogs ++
          [{ messageId := inbound.id, status := "ERROR_MANUAL", error := some e,
             latencyMs := none }])) := by
  have hlogs : tu.2.deliveryLogs = db.deliveryLogs := by rw [← htu]; simp
  refine ⟨?_, ?_, ?_, ?_, ?_⟩
  · intro hE
    unfold runWebhookWorker
    simp only [findMessageByIgId_upsertRawEvent, h1, hE, htu, hlogs, createSkipLog,
      eq_self_iff_true, if_true, createMessage_fst, createMessage_messages,
      createMessage_deliveryLogs, createDeliveryLog_messages,
      createDeliveryLog_deliveryLogs]
    refine ⟨trivial, ?_⟩
    refine
      ⟨{ id := tu.2.nextId, igMessageId := job.messageId, threadId := tu.1.id,
         senderIgId := job.senderId, direction := MessageDirection.IN,
         text := job.text, receivedAt := job.timestamp },
       ?_, rfl, rfl, ?_⟩
    · simp
    · simp
  · intro hE hS
    unfold runWebhookWorker
    simp only [findMessageByIgId_upsertRawEvent, h1, hE, hS, htu, hlogs,
      Bool.false_eq_true, if_false, eq_self_iff_true, if_true, createSkipLog,
      createMessage_fst, createMessage_messages, createMessage_deliveryLogs,
      createDeliveryLog_messages, createDeliveryLog_deliveryLogs]
    refine ⟨trivial, ?_⟩
    refine
      ⟨{ id := tu.2.nextId, igMessageId := job.messageId, threadId := tu.1.id,
         senderIgId := job.senderId, direction := MessageDirection.IN,
         text := job.text, receivedAt := job.timestamp },
       ?_, rfl, rfl, ?_⟩
    · simp
    · simp
  · intro hE hS h4
    unfold runWebhookWorker
    simp only [findMessageByIgId_upsertRawEvent, h1, hE, hS, hdraft, htu, hlogs,
      Bool.false_eq_true, if_false, if_pos h4, createSkipLog, createMessage_fst,
      createMessage_messages, createMessage_deliveryLogs, createMessage_nextId,
      updateMessageDraft_messages, updateMessageDraft_deliveryLogs,
      updateMessageDraft_nextId, createDeliveryLog_messages,
      createDeliveryLog_deliveryLogs]
    refine ⟨trivial, ?_⟩
    refine
      ⟨{ id := tu.2.nextId, igMessageId := job.messageId, threadId := tu.1.id,
         senderIgId := job.senderId, direction := MessageDirection.IN,
         text := job.text, receivedAt := job.timestamp,
         intent := some draft.intent, confidence := some draft.confidence,
         suggestedReply := some draft.reply,
         needsHumanApproval := draft.needs_human_approval },
       ?_, rfl, rfl, ?_⟩
    · simp
    · simp
  · intro hE hS h4
    constructor
    · intro r hr
      unfold runWebhookWorker
      simp only [findMessageByIgId_upsertRawEvent, h1, hE, hS, hdraft, hr, htu, hlogs,
        Bool.false_eq_true, if_false, if_neg h4, createMessage_fst,
        createMessage_messages, createMessage_deliveryLogs, createMessage_nextId,
        updateMessageDraft_messages, updateMessageDraft_deliveryLogs,
        updateMessageDraft_nextId, createDeliveryLog_messages,
        createDeliveryLog_deliveryLogs]
      refine ⟨trivial, ?_⟩
      refine
        ⟨{ id := tu.2.nextId + 1, igMessageId := r.messageId, threadId := tu.1.id,
           senderIgId := deps.metaIgBusinessAccountId, direction := MessageDirection.OUT,
           text := draft.reply, receivedAt := deps.now },
         { id := tu.2.nextId, igMessageId := job.messageId, threadId := tu.1.id,
           senderIgId := job.senderId, direction := MessageDirection.IN,
           text := job.text, receivedAt := job.timestamp,
           intent := some draft.intent, confidence := some draft.confidence,
           suggestedReply := some draft.reply,
           needsHumanApproval := draft.needs_human_approval },
         ?_, rfl, rfl, ?_, rfl, rfl, by simp, ?_⟩
      · simp
      · simp
      · simp
    · intro e he
      unfold runWebhookWorker
      simp only [findMessageByIgId_upsertRawEvent, h1, hE, hS, hdraft, he, htu, hlogs,
        Bool.false_eq_true, if_false, if_neg h4, createMessage_fst,
        createMessage_messages, createMessage_deliveryLogs, createMessage_nextId,
        updateMessageDraft_messages, updateMessageDraft_deliveryLogs,
        updateMessageDraft_nextId, createDeliveryLog_messages,
        createDeliveryLog_deliveryLogs]
      refine ⟨trivial, ?_⟩
      refine
        ⟨{ id := tu.2.nextId, igMessageId := job.messageId, threadId := tu.1.id,
           senderIgId := job.senderId, direction := MessageDirection.IN,
           text := job.text, receivedAt := job.timestamp,
           intent := some draft.intent, confidence := some draft.confidence,
           suggestedReply := some draft.reply,
           needsHumanApproval := draft.needs_human_approval },
         ?_, rfl, rfl, ?_⟩
      · simp
      · simp
  · intro ig businessId now adb mid replyText inbound hfind hdir
    constructor
    · intro r hr
      unfold adminSendMessage
      simp only [hfind, if_pos hdir, hr, createMessage_fst, createMessage_messages,
        createMessage_deliveryLogs, createDeliveryLog_messages,
        createDeliveryLog_deliveryLogs]
      refine
        ⟨{ id := adb.nextId, igMessageId := r.messageId, threadId := inbound.threadId,
           senderIgId := businessId, direction := MessageDirection.OUT,
           text := replyText, receivedAt := now },
         ?_, rfl, rfl, ?_⟩
      · simp
      · simp
    · intro e he
      unfold adminSendMessage
      simp only [hfind, if_pos hdir, he, createDeliveryLog_messages,
        createDeliveryLog_deliveryLogs]
      constructor <;> trivial

/-- A job whose text is whitespace only. -/
def whitespaceJob : ParsedWebhookJob :=
  { messageId := "mid_empty", senderId := "sender_e", text := "   ",
    timestamp := 1, threadId := "thread_e", isFromSelfOrSystem := false }

/-- A stored inbound Message row for the manual send route. -/
def adminInbound : DbMessage :=
  { id := 1, igMessageId := "mid_adm", threadId := 0, senderIgId := "user_adm",
    direction := MessageDirection.IN, text := "hi", receivedAt := 0 }

/-- A database holding `adminInbound`. -/
def adminDb : Db :=
  { nextId := 3, messages := [adminInbound] }

/-- A delivery client that succeeds with message id `out_m` after 4ms. -/
def igOkAdmin : String → String → Except String SendResult :=
  fun _ _ => Except.ok { messageId := "out_m", latencyMs := 4 }

/-- A delivery client that throws. -/
def igErrAdmin : String → String → Except String SendResult :=
  fun _ _ => Except.error "Meta unavailable"

/-- Witness for C2 (amended): the empty-text SKIPPED arm at `whitespaceJob`,
the success arm at `sendJob`, and both manual-send arms at `adminDb`, each at
concrete inputs with every hypothesis discharged by evaluation. -/
theorem delivery_log_attachment_witness :
    ((runWebhookWorker sendDeps whitespaceJob {}).2 = 0 ∧
     ∃ inbound,
       inbound ∈ (runWebhookWorker sendDeps whitespaceJob {}).1.messages ∧
       inbound.direction = MessageDirection.IN ∧
       inbound.igMessageId = whitespaceJob.messageId ∧
       (runWebhookWorker sendDeps whitespaceJob {}).1.deliveryLogs =
         ({} : Db).deliveryLogs ++
         [{ messageId := inbound.id, status := "SKIPPED",
            error := some "Guardrail: empty message text", latencyMs := none }]) ∧
    ((runWebhookWorker sendDeps sendJob {}).2 = 1 ∧
     ∃ outbound inbound,
       outbound ∈ (runWebhookWorker sendDeps sendJob {}).1.messages ∧
       outbound.direction = MessageDirection.OUT ∧
       outbound.igMessageId = "out_sent_1" ∧
       inbound ∈ (runWebhookWorker sendDeps sendJob {}).1.messages ∧
       inbound.direction = MessageDirection.IN ∧
       inbound.igMessageId = sendJob.messageId ∧
       outbound.id ≠ inbound.id ∧
       (runWebhookWorker sendDeps sendJob {}).1.deliveryLogs = ({} : Db).deliveryLogs ++
         [{ messageId := outbound.id, status := "SENT", error := none,
            latencyMs := some 9 }]) ∧
    (∃ outbound,
       outbound ∈ (adminSendMessage igOkAdmin "ig_biz_id" 9 adminDb 1 "manual reply").messages ∧
       outbound.direction = MessageDirection.OUT ∧
       outbound.igMessageId = "out_m" ∧
       (adminSendMessage igOkAdmin "ig_biz_id" 9 adminDb 1 "manual reply").deliveryLogs =
         adminDb.deliveryLogs ++
         [{ messageId := outbound.id, status := "SENT_MANUAL", error := none,
            latencyMs := some 4 }]) ∧
    ((adminSendMessage igErrAdmin "ig_biz_id" 9 adminDb 1 "manual reply").messages =
       adminDb.messages ∧
     (adminSendMessage igErrAdmin "ig_biz_id" 9 adminDb 1 "manual reply").deliveryLogs =
       adminDb.deliveryLogs ++
       [{ messageId := adminInbound.id, status := "ERROR_MANUAL",
          error := some "Meta unavailable", latencyMs := none }]) :=
  ⟨(delivery_log_attachment sendDeps whitespaceJob {} fallbackDraft
      ({ id := 0, igThreadId := "thread_e" },
        { nextId := 1, rawEvents := ["mid_empty"],
          threads := [{ id := 0, igThreadId := "thread_e" }] })
      (by decide) (by decide) (by decide)).1 (by decide),
   ((delivery_log_attachment sendDeps sendJob {} shippingDraft
       ({ id := 0, igThreadId := "thread_9" },
         { nextId := 1, rawEvents := ["mid_send_ok"],
           threads := [{ id := 0, igThreadId := "thread_9" }] })
       (by decide) (by decide) (by decide)).2.2.2.1
     (by decide) rfl (by decide)).1 { messageId := "out_sent_1", latencyMs := 9 } rfl,
   ((delivery_log_attachment sendDeps whitespaceJob {} fallbackDraft
       ({ id := 0, igThreadId := "thread_e" },
         { nextId := 1, rawEvents := ["mid_empty"],
           threads := [{ id := 0, igThreadId := "thread_e" }] })
       (by decide) (by decide) (by decide)).2.2.2.2
     igOkAdmin "ig_biz_id" 9 adminDb 1 "manual reply" adminInbound
     (by decide) rfl).1 { messageId := "out_m", latencyMs := 4 } rfl,
   ((delivery_log_attachment sendDeps whitespaceJob {} fallbackDraft
       ({ id := 0, igThreadId := "thread_e" },
         { nextId := 1, rawEvents := ["mid_empty"],
           threads := [{ id := 0, igThreadId := "thread_e" }] })
       (by decide) (by decide) (by decide)).2.2.2.2
     igErrAdmin "ig_biz_id" 9 adminDb 1 "manual reply" adminInbound
     (by decide) rfl).2 "Meta unavailable" rfl⟩

/-! ## C4: the confidence/approval guardrail -/

/-- Collaborators for a job that reaches classification with a low-confidence
draft: no keyword rule matches and the LLM returns the safe fallback draft
(confidence 0, approval required). The delivery client would succeed if it
were ever called. -/
def lowConfDeps : WorkerDeps :=
  { metaIgBusinessAccountId := "ig_biz_id", now := 4,
    rules := rulesGenerateDraft, llm := fun _ => fallbackDraft,
    igSendMessage := fun _ _ => Except.ok { messageId := "out_never", latencyMs := 1 } }

/-- A job whose text matches no keyword rule. -/
def lowConfJob : ParsedWebhookJob :=
  { messageId := "mid_lowconf", senderId := "sender_low",
    text := "hello there", timestamp := 1, threadId := "thread_low",
    isFromSelfOrSystem := false }

/-- Counterexample for C4. On a concrete low-confidence run the worker does
write a single SKIPPED entry and makes zero send calls, but the recorded error
string is `"Guardrail: low confidence or human approval required"`, which is
not the bare string `"low confidence or human approval required"` stated by
the claim (it carries the `"Guardrail: "` prefix). -/
theorem low_confidence_error_string_cex :
    ((runWebhookWorker lowConfDeps lowConfJob {}).1.deliveryLogs
      = [{ messageId := 1, status := "SKIPPED",
           error := some "Guardrail: low confidence or human approval required",
           latencyMs := none }]) ∧
    (runWebhookWorker lowConfDeps lowConfJob {}).2 = 0 ∧
    some "Guardrail: low confidence or human approval required" ≠
      some "low confidence or human approval required" := by
  refine ⟨by decide, by decide, by decide⟩

/-- C4 as amended by the counterexample. For every job that reaches the
classification step, if the persisted draft has confidence `< 0.6` or
`needsHumanApproval`, the worker writes one DeliveryLog entry with status
`SKIPPED` and error `"Guardrail: low confidence or human approval required"`
(which contains the claim's phrase as a substring), attached to the inbound
row, and terminates with zero delivery-collaborator calls; the confidence gate
is the literal `0.6`, exactly the rational `3/5`. -/
theorem low_confidence_guardrail (deps : WorkerDeps) (job : ParsedWebhookJob)
    (db : Db) (draft : LlmDraft) (tu : DbThread × Db)
    (h1 : findMessageByIgId db job.messageId = none)
    (h2 : (trimStr job.text).isEmpty = false)
    (h3 : job.isFromSelfOrSystem = false)
    (hdraft : (deps.rules job.text).getD (deps.llm job.text) = draft)
    (htu : upsertThread (upsertRawEvent db job.messageId) job.threadId = tu)
    (h4 : draft.confidence < (0.6 : ℚ) ∨ draft.needs_human_approval = true) :
    (runWebhookWorker deps job db).2 = 0 ∧
    (∃ inbound,
      inbound ∈ (runWebhookWorker deps job db).1.messages ∧
      inbound.direction = MessageDirection.IN ∧
      inbound.igMessageId = job.messageId ∧
      (runWebhookWorker deps job db).1.deliveryLogs = db.deliveryLogs ++
        [{ messageId := inbound.id, status := "SKIPPED",
           error := some "Guardrail: low confidence or human approval required",
           latencyMs := none }]) ∧
    includesStr "Guardrail: low confidence or human approval required"
      "low confidence or human approval required" = true ∧
    (0.6 : ℚ) = mkRat 3 5 := by
  have hlogs : tu.2.deliveryLogs = db.deliveryLogs := by rw [← htu]; simp
  refine ⟨?_, ?_, by decide, by decide⟩
  · unfold runWebhookWorker
    simp only [findMessageByIgId_upsertRawEvent, h1, h2, h3, hdraft, htu,
      Bool.false_eq_true, if_false, if_pos h4, createSkipLog]
  · unfold runWebhookWorker
    simp only [findMessageByIgId_upsertRawEvent, h1, h2, h3, hdraft, htu, hlogs,
      Bool.false_eq_true, if_false, if_pos h4, createSkipLog, createMessage_fst,
      createMessage_messages, createMessage_deliveryLogs, createMessage_nextId,
      updateMessageDraft_messages, updateMessageDraft_deliveryLogs,
      updateMessageDraft_nextId, createDeliveryLog_messages,
      createDeliveryLog_deliveryLogs]
    refine
      ⟨{ id := tu.2.nextId, igMessageId := job.messageId, threadId := tu.1.id,
         senderIgId := job.senderId, direction := MessageDirection.IN,
         text := job.text, receivedAt := job.timestamp,
         intent := some draft.intent, confidence := some draft.confidence,
         suggestedReply := some draft.reply,
         needsHumanApproval := draft.needs_human_approval },
       ?_, rfl, rfl, ?_⟩
    · simp
    · simp

/-- Witness for C4 (amended): instantiated at `lowConfDeps`, `lowConfJob` and
an empty database, where the fallback draft (confidence 0, approval required)
trips the guardrail. -/
theorem low_confidence_guardrail_witness :
    (runWebhookWorker lowConfDeps lowConfJob {}).2 = 0 ∧
    (∃ inbound,
      inbound ∈ (runWebhookWorker lowConfDeps lowConfJob {}).1.messages ∧
      inbound.direction = MessageDirection.IN ∧
      inbound.igMessageId = lowConfJob.messageId ∧
      (runWebhookWorker lowConfDeps lowConfJob {}).1.deliveryLogs =
        ({} : Db).deliveryLogs ++
        [{ messageId := inbound.id, status := "SKIPPED",
           error := some "Guardrail: low confidence or human approval required",
           latencyMs := none }]) ∧
    includesStr "Guardrail: low confidence or human approval required"
      "low confidence or human approval required" = true ∧
    (0.6 : ℚ) = mkRat 3 5 :=
  low_confidence_guardrail lowConfDeps lowConfJob {} fallbackDraft
    ({ id := 0, igThreadId := "thread_low" },
      { nextId := 1, rawEvents := ["mid_lowconf"],
        threads := [{ id := 0, igThreadId := "thread_low" }] })
    (by decide) (by decide) rfl (by decide) (by decide) (by decide)

/-! ## C1: the policy guardrail is absent from the worker -/

/-- The policy store produced by `ensureAllPolicies` (one default row per
segment, in `CONTACT_SEGMENTS` order). -/
def defaultPolicyStore : List ReplyPolicy :=
  (ensurePolicy (ensurePolicy (ensurePolicy (ensurePolicy []
    ContactSegment.FRIEND).2 ContactSegment.KNOWN).2 ContactSegment.STRANGER).2
    ContactSegment.VIP).2

/-- Collaborators for the FRIEND-sender scenario: keyword rules (which match
`how much` with confidence 0.95 and no approval flag) and a delivery client
that succeeds. -/
def friendDeps : WorkerDeps :=
  { metaIgBusinessAccountId := "ig_biz_id", now := 6,
    rules := rulesGenerateDraft, llm := fun _ => fallbackDraft,
    igSendMessage := fun _ _ => Except.ok { messageId := "out_1", latencyMs := 1 } }

/-- A job from the sender labelled FRIEND. -/
def friendJob : ParsedWebhookJob :=
  { messageId := "mid_friend", senderId := "friend_sender",
    text := "How much does this cost?", timestamp := 3, threadId := "thread_1",
    isFromSelfOrSystem := false }

/-- Database holding the FRIEND contact and all four default policies. -/
def friendDb : Db :=
  { contacts := [{ senderIgId := "friend_sender", segment := ContactSegment.FRIEND }],
    replyPolicies := defaultPolicyStore }

/-- C1 evaluated at its failing input. The sender is stored as segment FRIEND
and the persisted FRIEND policy has `autoSend = false`, yet the worker run
makes one delivery-collaborator call and its only DeliveryLog entry is `SENT`:
no step of `createWebhookWorker` resolves the segment or the policy, so no
`SKIPPED` entry with error `"auto-send disabled for segment FRIEND"` is ever
written. This contradicts the repository's own worker test, which asserts
zero send calls and exactly that SKIPPED entry for this scenario. -/
theorem friend_policy_guardrail_missing :
    friendDb.contacts =
      [{ senderIgId := "friend_sender", segment := ContactSegment.FRIEND }] ∧
    friendDb.replyPolicies.find? (fun p => p.segment == ContactSegment.FRIEND) =
      some { segment := ContactSegment.FRIEND, autoSend := false,
             requireHumanApproval := true, template := none } ∧
    (runWebhookWorker friendDeps friendJob friendDb).2 = 1 ∧
    ((runWebhookWorker friendDeps friendJob friendDb).1.deliveryLogs.map
      (fun l => l.status)) = ["SENT"] ∧
    (∀ l ∈ (runWebhookWorker friendDeps friendJob friendDb).1.deliveryLogs,
      l.error ≠ some "auto-send disabled for segment FRIEND") := by
  refine ⟨by decide, by decide, by decide, by decide, by decide⟩

/-! ## C10: the default policy table and the policy upsert -/

/-- C10. The lazily created defaults reproduce the spec table exactly
(FRIEND and VIP hold for approval, KNOWN and STRANGER auto-send, all with a
null template), and `ensurePolicy` is an upsert that never duplicates a
segment's row: the row count for the requested segment afterwards is
`max (previous count) 1`, rows of other segments are untouched, and a second
`ensurePolicy` for the same segment changes nothing. -/
theorem default_policy_table :
    (getDefaultPolicy ContactSegment.FRIEND =
      { autoSend := false, requireHumanApproval := true, template := none } ∧
     getDefaultPolicy ContactSegment.KNOWN =
      { autoSend := true, requireHumanApproval := false, template := none } ∧
     getDefaultPolicy ContactSegment.STRANGER =
      { autoSend := true, requireHumanApproval := false, template := none } ∧
     getDefaultPolicy ContactSegment.VIP =
      { autoSend := false, requireHumanApproval := true, template := none }) ∧
    (∀ (store : List ReplyPolicy) (seg : ContactSegment),
      (ensurePolicy store seg).2.countP (fun p => p.segment == seg) =
        max (store.countP (fun p => p.segment == seg)) 1) ∧
    (∀ (store : List ReplyPolicy) (seg seg2 : ContactSegment), seg2 ≠ seg →
      (ensurePolicy store seg).2.filter (fun p => p.segment == seg2) =
        store.filter (fun p => p.segment == seg2)) ∧
    (∀ (store : List ReplyPolicy) (seg : ContactSegment),
      ensurePolicy (ensurePolicy store seg).2 seg =
        ((ensurePolicy store seg).1, (ensurePolicy store seg).2)) := by
  refine ⟨⟨rfl, rfl, rfl, rfl⟩, ?_, ?_, ?_⟩
  · intro store seg
    unfold ensurePolicy
    cases hf : store.find? (fun p => p.segment == seg) with
    | some p =>
      have hpos : 0 < store.countP (fun p => p.segment == seg) := by
        rw [List.countP_pos_iff]
        exact ⟨p, List.mem_of_find?_eq_some hf, by simpa using List.find?_some hf⟩
      simp [Nat.max_eq_left hpos]
    | none =>
      have hzero : store.countP (fun p => p.segment == seg) = 0 := by
        rw [List.countP_eq_zero]
        intro p hp
        exact List.find?_eq_none.mp hf p hp
      simp [List.countP_append, hzero, List.countP_cons]
  · intro store seg seg2 hne
    unfold ensurePolicy
    cases hf : store.find? (fun p => p.segment == seg) with
    | some p => rfl
    | none =>
      simp only [List.filter_append, List.filter_cons, List.filter_nil]
      have hne2 : ((seg == seg2) : Bool) = false := by
        simp only [beq_eq_false_iff_ne]
        exact Ne.symm hne
      simp [hne2]
  · intro store seg
    unfold ensurePolicy
    cases hf : store.find? (fun p => p.segment == seg) with
    | some p => simp [hf]
    | none =>
      simp [List.find?_append, hf]

/-- Witness for C10: the table entry for FRIEND, the upsert on an empty store
(count goes from 0 to 1), an untouched other segment, and idempotence of a
repeated `ensurePolicy` for the same segment. -/
theorem default_policy_table_witness :
    getDefaultPolicy ContactSegment.FRIEND =
      { autoSend := false, requireHumanApproval := true, template := none } ∧
    (ensurePolicy [] ContactSegment.FRIEND).2.countP
        (fun p => p.segment == ContactSegment.FRIEND) =
      max (([] : List ReplyPolicy).countP
        (fun p => p.segment == ContactSegment.FRIEND)) 1 ∧
    ContactSegment.KNOWN ≠ ContactSegment.FRIEND ∧
    (ensurePolicy [] ContactSegment.FRIEND).2.filter
        (fun p => p.segment == ContactSegment.KNOWN) =
      ([] : List ReplyPolicy).filter (fun p => p.segment == ContactSegment.KNOWN) ∧
    ensurePolicy (ensurePolicy [] ContactSegment.FRIEND).2 ContactSegment.FRIEND =
      ((ensurePolicy [] ContactSegment.FRIEND).1,
        (ensurePolicy [] ContactSegment.FRIEND).2) :=
  ⟨default_policy_table.1.1,
   default_policy_table.2.1 [] ContactSegment.FRIEND,
   by decide,
   default_policy_table.2.2.1 [] ContactSegment.FRIEND ContactSegment.KNOWN (by decide),
   default_policy_table.2.2.2 [] ContactSegment.FRIEND⟩

/-! ## C5: the model fallback never propagates a failure -/

/-- Unfolding `generateDraft` on a parsed body. -/
theorem generateDraft_ok (j : Json) :
    generateDraft (Except.ok j) =
      match validateDraft j with
      | .ok d => d
      | .error _ => fallbackDraft := rfl

/-- Any draft accepted by `validateDraft` satisfies the schema bounds. -/
theorem validateDraft_sound (j : Json) (d : LlmDraft)
    (h : validateDraft j = Except.ok d) :
    d.intent ∈ intentValues ∧ 0 ≤ d.confidence ∧ d.confidence ≤ 1 ∧
      1 ≤ d.reply.length := by
  unfold validateDraft at h
  split at h <;> try simp at h
  split at h <;> try simp at h
  split at h <;> try simp at h
  split at h <;> try simp at h
  split at h <;> try simp at h
  split at h <;> try simp at h
  split at h <;> try simp at h
  cases h
  exact ⟨by simp_all, by simp_all, by simp_all, by simp_all⟩

/-- C5. `generateDraft` is total by construction (its result type is a draft,
not an exception), and every failure — a transport/parse error or any schema
violation reported by `validateDraft`, including an out-of-range confidence or
an unknown intent — yields exactly the safe fallback draft: intent `unknown`,
confidence `0.0`, the generic will-review reply, `needs_human_approval = true`.
A non-fallback result is only possible when validation succeeded, and then it
satisfies the schema bounds. -/
theorem generateDraft_never_propagates (res : Except String Json) :
    (∀ e, res = Except.error e → generateDraft res = fallbackDraft) ∧
    (∀ j e, res = Except.ok j → validateDraft j = Except.error e →
      generateDraft res = fallbackDraft) ∧
    (generateDraft res = fallbackDraft ∨
      ∃ j d, res = Except.ok j ∧ validateDraft j = Except.ok d ∧
        generateDraft res = d ∧ d.intent ∈ intentValues ∧
        0 ≤ d.confidence ∧ d.confidence ≤ 1) ∧
    fallbackDraft =
      { intent := "unknown", confidence := 0.0,
        reply := "Thanks for your message. A team member will review this shortly.",
        needs_human_approval := true } := by
  refine ⟨?_, ?_, ?_, rfl⟩
  · rintro e rfl; rfl
  · rintro j e rfl hv
    rw [generateDraft_ok, hv]
  · cases res with
    | error e => exact Or.inl rfl
    | ok j =>
      cases hv : validateDraft j with
      | error e => exact Or.inl (by rw [generateDraft_ok, hv])
      | ok d =>
        refine Or.inr ⟨j, d, rfl, hv, by rw [generateDraft_ok, hv], ?_⟩
        obtain ⟨hi, hc0, hc1, _⟩ := validateDraft_sound j d hv
        exact ⟨hi, hc0, hc1⟩

/-- Witness for C5: at a transport error, a malformed body (no `intent`
field), an out-of-range confidence and an unknown intent, `generateDraft`
returns exactly the fallback draft. -/
theorem generateDraft_never_propagates_witness :
    generateDraft (Except.error "network error") = fallbackDraft ∧
    generateDraft (Except.ok (Json.obj [])) = fallbackDraft ∧
    generateDraft (Except.ok (Json.obj
      [("intent", Json.str "pricing"), ("confidence", Json.num 1.5),
       ("reply", Json.str "hi"), ("needs_human_approval", Json.bool false)]))
      = fallbackDraft ∧
    generateDraft (Except.ok (Json.obj
      [("intent", Json.str "smalltalk"), ("confidence", Json.num 0.5),
       ("reply", Json.str "hi"), ("needs_human_approval", Json.bool false)]))
      = fallbackDraft :=
  ⟨(generateDraft_never_propagates (Except.error "network error")).1
      "network error" rfl,
   (generateDraft_never_propagates (Except.ok (Json.obj []))).2.1
      (Json.obj []) "missing intent" rfl rfl,
   (generateDraft_never_propagates _).2.1 _ "confidence out of range" rfl rfl,
   (generateDraft_never_propagates _).2.1 _ "invalid intent" rfl rfl⟩

/-! ## C9: the event normalizer -/

/-- C9. `eventToJob` produces a job only when both `message.mid` and
`sender.id` are present (and nonempty, since the source guard tests JS
truthiness); an event lacking either yields `none`, and dropping it from the
messaging list leaves the extracted jobs unchanged (silently dropped, no
error); and every produced job's `threadId` is the explicit conversation id
when present, else `{entryId}_{senderId}`. -/
theorem eventToJob_requirements (now : Nat) (entryId : String)
    (event : MetaMessagingEvent) :
    (∀ j, eventToJob now entryId event = some j →
      (event.message.bind (fun m => m.mid)).isSome ∧
      (event.sender.bind (fun s => s.id)).isSome) ∧
    ((event.message.bind (fun m => m.mid) = none ∨
      event.sender.bind (fun s => s.id) = none) →
      eventToJob now entryId event = none) ∧
    (∀ (pre post : List MetaMessagingEvent),
      eventToJob now entryId event = none →
        (pre ++ event :: post).filterMap (eventToJob now entryId) =
        (pre ++ post).filterMap (eventToJob now entryId)) ∧
    (∀ j, eventToJob now entryId event = some j →
      j.threadId = (event.conversation.bind (fun c => c.id)).getD
        (entryId ++ "_" ++ j.senderId)) := by
  refine ⟨?_, ?_, ?_, ?_⟩
  · intro j hj
    cases hm : event.message.bind (fun m => m.mid) with
    | none => unfold eventToJob at hj; simp [hm] at hj
    | some mid =>
      cases hs : event.sender.bind (fun s => s.id) with
      | none => unfold eventToJob at hj; simp [hm, hs] at hj
      | some sid => simp [hm, hs]
  · intro h
    rcases h with h | h
    · unfold eventToJob; simp [h]
    · unfold eventToJob
      cases hm2 : event.message.bind (fun m => m.mid) <;> simp [hm2, h]
  · intro pre post hnone
    simp [List.filterMap_append, hnone]
  · intro j hj
    unfold eventToJob at hj
    cases hm : event.message.bind (fun m => m.mid) with
    | none => simp [hm] at hj
    | some mid =>
      cases hs : event.sender.bind (fun s => s.id) with
      | none => simp [hm, hs] at hj
      | some sid =>
        simp only [hm, hs] at hj
        by_cases he : (mid.isEmpty || sid.isEmpty) = true
        · rw [if_pos he] at hj; exact absurd hj (by simp)
        · rw [if_neg he] at hj
          cases hj
          rfl

/-- Witness for C9: a complete event produces a job with the synthesized
thread id; removing the `sender` id drops the event from extraction. -/
theorem eventToJob_requirements_witness :
    ((({ sender := some { id := some "user_9" },
         recipient := some { id := some "biz_1" },
         message := some { mid := some "mid_9", text := some "hi" } }
        : MetaMessagingEvent).message.bind (fun m => m.mid)).isSome ∧
      (({ sender := some { id := some "user_9" },
          recipient := some { id := some "biz_1" },
          message := some { mid := some "mid_9", text := some "hi" } }
        : MetaMessagingEvent).sender.bind (fun s => s.id)).isSome) ∧
    ([({ sender := none, message := some { mid := some "mid_9" } }
        : MetaMessagingEvent)].filterMap (eventToJob 3 "entry_1") =
      ([] : List MetaMessagingEvent).filterMap (eventToJob 3 "entry_1")) ∧
    (eventToJob 3 "entry_1"
      { sender := some { id := some "user_9" },
        recipient := some { id := some "biz_1" },
        message := some { mid := some "mid_9", text := some "hi" } }).map
      (fun j => j.threadId) = some "entry_1_user_9" :=
  ⟨(eventToJob_requirements 3 "entry_1" _).1
      { messageId := "mid_9", senderId := "user_9", text := "hi", timestamp := 3,
        threadId := "entry_1_user_9", isFromSelfOrSystem := false } (by decide),
   (eventToJob_requirements 3 "entry_1"
      { sender := none, message := some { mid := some "mid_9" } }).2.2.1
      [] [] (by decide),
   by decide⟩

/-! ## Queue lemmas -/

theorem drainQ_concurrency {T : Type} (s : QueueState T) :
    (drainQ s).concurrency = s.concurrency := by
  unfold drainQ; split <;> rfl

theorem drainQ_enqueued {T : Type} (s : QueueState T) :
    (drainQ s).enqueued = s.enqueued := by
  unfold drainQ; split <;> rfl

theorem drainQ_finished {T : Type} (s : QueueState T) :
    (drainQ s).finished = s.finished := by
  unfold drainQ; split <;> rfl

theorem drainQ_inFlight_le {T : Type} (s : QueueState T)
    (h : s.inFlight.length ≤ s.concurrency) :
    (drainQ s).inFlight.length ≤ s.concurrency := by
  unfold drainQ
  split
  · simp only [List.length_append, List.length_take]
    omega
  · exact h

theorem drainQ_trace {T : Type} (s : QueueState T) :
    (drainQ s).finished.map Prod.fst ++ (drainQ s).inFlight ++ (drainQ s).pending =
      s.finished.map Prod.fst ++ s.inFlight ++ s.pending := by
  unfold drainQ
  split
  · simp [List.append_assoc, List.take_append_drop]
  · rfl

/-- A member of a list of length at most one is its only element. -/
theorem mem_length_le_one {T : Type} {l : List T} {j : T}
    (hj : j ∈ l) (hl : l.length ≤ 1) : l = [j] := by
  cases l with
  | nil => cases hj
  | cons a t =>
    cases t with
    | nil => rw [List.mem_singleton.mp hj]
    | cons b t2 => simp at hl

/-- One queue transition preserves the concurrency field, the in-flight bound,
and (at concurrency 1) the FIFO trace decomposition of the enqueue history. -/
theorem queueStep_inv {T : Type} [BEq T] [LawfulBEq T] {s s' : QueueState T}
    (hstep : QueueStep s s')
    (hlen : s.inFlight.length ≤ s.concurrency)
    (htrace : s.concurrency = 1 →
      s.finished.map Prod.fst ++ s.inFlight ++ s.pending = s.enqueued) :
    s'.concurrency = s.concurrency ∧
    s'.inFlight.length ≤ s'.concurrency ∧
    (s'.concurrency = 1 →
      s'.finished.map Prod.fst ++ s'.inFlight ++ s'.pending = s'.enqueued) := by
  cases hstep with
  | enqueue j =>
    unfold enqueueQ
    refine ⟨drainQ_concurrency _, ?_, ?_⟩
    · rw [drainQ_concurrency]
      exact drainQ_inFlight_le _ hlen
    · intro h1
      rw [drainQ_concurrency] at h1
      rw [drainQ_trace, drainQ_enqueued]
      show s.finished.map Prod.fst ++ s.inFlight ++ (s.pending ++ [j]) =
        s.enqueued ++ [j]
      rw [← htrace h1]
      simp [List.append_assoc]
  | start =>
    unfold startQ
    refine ⟨drainQ_concurrency _, ?_, ?_⟩
    · rw [drainQ_concurrency]
      exact drainQ_inFlight_le _ hlen
    · intro h1
      rw [drainQ_concurrency] at h1
      rw [drainQ_trace, drainQ_enqueued]
      exact htrace h1
  | complete j ok hmem =>
    unfold completeQ
    refine ⟨drainQ_concurrency _, ?_, ?_⟩
    · rw [drainQ_concurrency]
      refine drainQ_inFlight_le _ ?_
      show (s.inFlight.erase j).length ≤ s.concurrency
      calc (s.inFlight.erase j).length ≤ s.inFlight.length :=
            (List.erase_sublist j s.inFlight).length_le
        _ ≤ s.concurrency := hlen
    · intro h1
      rw [drainQ_concurrency] at h1
      have h1' : s.concurrency = 1 := h1
      rw [drainQ_trace, drainQ_enqueued]
      have hsing : s.inFlight = [j] := mem_length_le_one hmem (by omega)
      show (s.finished ++ [(j, ok)]).map Prod.fst ++ s.inFlight.erase j ++ s.pending =
        s.enqueued
      rw [hsing, List.erase_cons_head, List.map_append]
      have hts := htrace h1'
      rw [hsing] at hts
      simpa using hts

/-- The reachable-state invariant of the queue: concurrency is fixed by the
constructor, the in-flight count never exceeds it, and at concurrency 1 the
completion order, the in-flight job and the pending backlog decompose the
enqueue history in order. -/
theorem queue_reachable_inv {T : Type} [BEq T] [LawfulBEq T] (c : Nat)
    (s : QueueState T) (h : QueueReachable T c s) :
    s.concurrency = c ∧ s.inFlight.length ≤ c ∧
    (c = 1 → s.finished.map Prod.fst ++ s.inFlight ++ s.pending = s.enqueued) := by
  induction h with
  | refl => exact ⟨rfl, by simp [initQueue], fun _ => rfl⟩
  | tail hr hstep ih =>
    obtain ⟨hc, hlen, htrace⟩ := ih
    obtain ⟨hc', hlen', htrace'⟩ :=
      queueStep_inv hstep (by rw [hc]; exact hlen) (fun h1 => htrace (hc ▸ h1))
    rw [hc] at hc'
    refine ⟨hc', ?_, fun h1 => htrace' (by rw [hc', h1])⟩
    try rw [hc'] at hlen'
    exact hlen'

/-- C6. In every reachable state of the queue — over any sequence of enqueue,
start and worker-completion steps — the number of simultaneously in-flight
worker invocations never exceeds the configured concurrency limit. -/
theorem queue_concurrency_bound (c : Nat) (s : QueueState Nat)
    (h : QueueReachable Nat c s) : s.inFlight.length ≤ c :=
  (queue_reachable_inv c s h).2.1

/-- C7. At concurrency 1, in every reachable state the completed invocations
(in completion order), the in-flight job and the pending backlog are exactly
the enqueue history in enqueue order: each enqueued job is dispatched at most
once, in strict FIFO order, and completion order equals enqueue order. -/
theorem queue_fifo_order (s : QueueState Nat) (h : QueueReachable Nat 1 s) :
    s.finished.map Prod.fst ++ s.inFlight ++ s.pending = s.enqueued :=
  (queue_reachable_inv 1 s h).2.2 rfl

/-! ## Reachability of the driver states -/

theorem reachable_enqueueQ {T : Type} [BEq T] {c : Nat} {s : QueueState T}
    (h : QueueReachable T c s) (j : T) : QueueReachable T c (enqueueQ s j) :=
  Relation.ReflTransGen.tail h (QueueStep.enqueue s j)

theorem reachable_startQ {T : Type} [BEq T] {c : Nat} {s : QueueState T}
    (h : QueueReachable T c s) : QueueReachable T c (startQ s) :=
  Relation.ReflTransGen.tail h (QueueStep.start s)

theorem reachable_foldl_enqueueQ {T : Type} [BEq T] {c : Nat} (jobs : List T)
    {s : QueueState T} (h : QueueReachable T c s) :
    QueueReachable T c (jobs.foldl enqueueQ s) := by
  induction jobs generalizing s with
  | nil => exact h
  | cons j t ih => exact ih (reachable_enqueueQ h j)

theorem reachable_completeNext {T : Type} [BEq T] {c : Nat} (fail : T → Bool)
    {s : QueueState T} (h : QueueReachable T c s) :
    QueueReachable T c (completeNext fail s) := by
  cases hm : s.inFlight with
  | nil =>
    unfold completeNext
    rw [hm]
    exact h
  | cons j t =>
    unfold completeNext
    rw [hm]
    exact Relation.ReflTransGen.tail h
      (QueueStep.complete s j (! fail j) (by rw [hm]; exact List.mem_cons_self j t))

theorem reachable_runLoop {T : Type} [BEq T] {c : Nat} (fail : T → Bool)
    (fuel : Nat) {s : QueueState T} (h : QueueReachable T c s) :
    QueueReachable T c (runLoop fail fuel s) := by
  induction fuel generalizing s with
  | zero => exact h
  | succ n ih =>
    unfold runLoop
    split
    · exact h
    · exact ih (reachable_completeNext fail h)

theorem reachable_runJobs {T : Type} [BEq T] (c : Nat) (fail : T → Bool)
    (jobs : List T) : QueueReachable T c (runJobs c fail jobs) :=
  reachable_runLoop fail jobs.length
    (reachable_foldl_enqueueQ jobs (reachable_startQ Relation.ReflTransGen.refl))

/-- The state after starting a queue with concurrency 2 and enqueueing the 8
benchmark jobs while the two dispatched workers are still running. -/
def bench8 : QueueState Nat :=
  [0, 1, 2, 3, 4, 5, 6, 7].foldl enqueueQ (startQ (initQueue Nat 2))

/-- Witness for C6: the 8-jobs/concurrency-2 scenario. The state is reachable
and its in-flight count is bounded by 2; it is in fact exactly the two oldest
jobs, with the remaining six pending. -/
theorem queue_concurrency_bound_witness :
    QueueReachable Nat 2 bench8 ∧ bench8.inFlight.length ≤ 2 ∧
    bench8.inFlight = [0, 1] ∧ bench8.pending = [2, 3, 4, 5, 6, 7] :=
  ⟨reachable_foldl_enqueueQ _ (reachable_startQ Relation.ReflTransGen.refl),
   queue_concurrency_bound 2 bench8
     (reachable_foldl_enqueueQ _ (reachable_startQ Relation.ReflTransGen.refl)),
   by decide, by decide⟩

/-- The final state of a concurrency-1 queue fed jobs `[0,1,2,3,4]` with a
worker that never throws. -/
def fifoRun : QueueState Nat :=
  runJobs 1 (fun _ => false) [0, 1, 2, 3, 4]

/-- Witness for C7: jobs `[0,1,2,3,4]` on a concurrency-1 queue. The final
state is reachable, the trace decomposition holds there, and evaluating it
shows the processed order is exactly `[0,1,2,3,4]`. -/
theorem queue_fifo_order_witness :
    QueueReachable Nat 1 fifoRun ∧
    fifoRun.finished.map Prod.fst ++ fifoRun.inFlight ++ fifoRun.pending =
      fifoRun.enqueued ∧
    fifoRun.finished.map Prod.fst = [0, 1, 2, 3, 4] ∧
    fifoRun.enqueued = [0, 1, 2, 3, 4] :=
  ⟨reachable_runJobs 1 (fun _ => false) [0, 1, 2, 3, 4],
   queue_fifo_order fifoRun (reachable_runJobs 1 (fun _ => false) [0, 1, 2, 3, 4]),
   by decide, by decide⟩

/-! ## C8: error isolation -/

theorem startQ_initQueue (T : Type) (c : Nat) :
    startQ (initQueue T c) =
      { concurrency := c, started := true, pending := [], inFlight := [],
        finished := [], enqueued := [] } := by
  simp [startQ, initQueue, drainQ]

/-- Enqueueing while every concurrency slot is busy only appends to the
backlog. -/
theorem enqueueQ_full {T : Type} (s : QueueState T) (j : T)
    (hc : s.concurrency ≤ s.inFlight.length) :
    enqueueQ s j =
      { s with pending := s.pending ++ [j], enqueued := s.enqueued ++ [j] } := by
  unfold enqueueQ drainQ
  split
  · have hzero : s.concurrency - s.inFlight.length = 0 := by omega
    cases s
    simp [hzero]
  · rfl

theorem foldl_enqueueQ_full {T : Type} (jobs : List T) (s : QueueState T)
    (hc : s.concurrency ≤ s.inFlight.length) :
    jobs.foldl enqueueQ s =
      { s with pending := s.pending ++ jobs, enqueued := s.enqueued ++ jobs } := by
  induction jobs generalizing s with
  | nil => cases s; simp
  | cons j t ih =>
    rw [List.foldl_cons, enqueueQ_full s j hc, ih _ (by simpa using hc)]
    simp

/-- Driving a concurrency-1 queue with one in-flight job and backlog `P` to
completion: every job settles exactly once, oldest first, succeeding exactly
when the worker does not throw on it. -/
theorem runLoop_completes {T : Type} [BEq T] [LawfulBEq T] (fail : T → Bool)
    (P : List T) : ∀ (j : T) (F : List (T × Bool)) (E : List T),
    runLoop fail (P.length + 1)
      { concurrency := 1, started := true, pending := P, inFlight := [j],
        finished := F, enqueued := E } =
      { concurrency := 1, started := true, pending := [], inFlight := [],
        finished := F ++ (j :: P).map (fun x => (x, ! fail x)), enqueued := E } := by
  induction P with
  | nil =>
    intro j F E
    simp [runLoop, completeNext, completeQ, drainQ, List.erase_cons_head]
  | cons p t ih =>
    intro j F E
    have hstep : completeNext fail
        { concurrency := 1, started := true, pending := p :: t, inFlight := [j],
          finished := F, enqueued := E } =
        { concurrency := 1, started := true, pending := t, inFlight := [p],
          finished := F ++ [(j, ! fail j)], enqueued := E } := by
      simp [completeNext, completeQ, drainQ, List.erase_cons_head]
    have hfuel : (p :: t).length + 1 = t.length + 1 + 1 := by simp
    rw [hfuel]
    show (if _ then _ else runLoop fail (t.length + 1) _) = _
    rw [if_neg (by simp), hstep, ih p (F ++ [(j, ! fail j)]) E]
    simp

/-- C8. For any job list and any set of failing jobs, running a concurrency-1
queue to completion invokes the worker on every job exactly once in order
(`finished` lists every job with its outcome), reports each failing job to the
`onError` hook exactly once (`errorJobs` is exactly the failing jobs, in
order), leaves nothing pending or in flight (no failed job is ever re-queued),
and jobs after a failure still complete. -/
theorem queue_error_isolation (jobs : List Nat) (fail : Nat → Bool) :
    (runJobs 1 fail jobs).finished = jobs.map (fun j => (j, ! fail j)) ∧
    errorJobs (runJobs 1 fail jobs) = jobs.filter fail ∧
    (runJobs 1 fail jobs).pending = [] ∧
    (runJobs 1 fail jobs).inFlight = [] := by
  have hrun : runJobs 1 fail jobs =
      { concurrency := 1, started := true, pending := [], inFlight := [],
        finished := jobs.map (fun x => (x, ! fail x)), enqueued := jobs } := by
    cases jobs with
    | nil => simp [runJobs, runLoop, startQ_initQueue]
    | cons j t =>
      unfold runJobs
      rw [List.foldl_cons]
      have h1 : enqueueQ (startQ (initQueue Nat 1)) j =
          { concurrency := 1, started := true, pending := [], inFlight := [j],
            finished := [], enqueued := [j] } := by
        simp [enqueueQ, startQ, initQueue, drainQ]
      rw [h1, foldl_enqueueQ_full t _ (by simp)]
      simp only [List.nil_append, List.singleton_append, List.length_cons]
      exact runLoop_completes fail t j [] (j :: t)
  have herr : ∀ (l : List Nat),
      ((l.map (fun x => (x, ! fail x))).filter (fun p => p.2 == false)).map Prod.fst
        = l.filter fail := by
    intro l
    induction l with
    | nil => rfl
    | cons a t ih =>
      simp only [beq_false] at ih
      cases hfa : fail a <;> simp [List.filter_cons, hfa, beq_false, ih]
  rw [hrun]
  exact ⟨rfl, herr jobs, rfl, rfl⟩

end InstaReply
